import Mathlib

/-!
Verification of the Conductor.js database layer (query translation layer).

The development shallowly embeds the two storage-engine variants of the
library: the IndexedDB implementation (indexed-db.js) and the WebSQL
implementation (web-sql.js), together with the shared mixin helpers
(getKeysFromObject, getValuesFromObject, isFirst, isLast).  Records,
queries and index declarations are modelled as association lists, mirroring
the insertion-ordered plain objects of the source.  The asynchronous
promise-based operations are modelled by a pure outcome type: an operation
either fulfills with a value, rejects, or never settles (a thrown exception
inside an asynchronous engine callback leaves the wrapping promise pending
forever, which is distinct from rejection).
-/

namespace Conductor

/-- Values stored in records and used as IndexedDB keys: numbers, strings, and
arrays of keys (compound index keys and the tuple bounds of key ranges). -/
inductive IDBKey where
  | num (n : Int)
  | str (s : String)
  | arr (ks : List IDBKey)

mutual
/-- Structural equality on key values (JavaScript strict equality restricted to
the value shapes that occur as record attributes and key bounds). -/
def keyEq : IDBKey → IDBKey → Bool
  | .num a, .num b => a == b
  | .str a, .str b => a == b
  | .arr a, .arr b => keyListEq a b
  | _, _ => false
/-- Pointwise equality of key lists. -/
def keyListEq : List IDBKey → List IDBKey → Bool
  | [], [] => true
  | a :: as, b :: bs => keyEq a b && keyListEq as bs
  | _, _ => false
end

mutual
theorem keyEq_iff : ∀ a b : IDBKey, keyEq a b = true ↔ a = b
  | .num _, .num _ => by simp [keyEq]
  | .num _, .str _ => by simp [keyEq]
  | .num _, .arr _ => by simp [keyEq]
  | .str _, .num _ => by simp [keyEq]
  | .str _, .str _ => by simp [keyEq]
  | .str _, .arr _ => by simp [keyEq]
  | .arr a, .arr b => by simp [keyEq, keyListEq_iff a b]
  | .arr _, .num _ => by simp [keyEq]
  | .arr _, .str _ => by simp [keyEq]
theorem keyListEq_iff : ∀ as bs : List IDBKey, keyListEq as bs = true ↔ as = bs
  | [], [] => by simp [keyListEq]
  | [], _ :: _ => by simp [keyListEq]
  | _ :: _, [] => by simp [keyListEq]
  | a :: as, b :: bs => by
      simp [keyListEq, keyEq_iff a b, keyListEq_iff as bs]
end

instance : DecidableEq IDBKey := fun a b => decidable_of_iff (keyEq a b = true) (keyEq_iff a b)

instance : BEq IDBKey := ⟨keyEq⟩

instance : LawfulBEq IDBKey where
  eq_of_beq h := (keyEq_iff _ _).mp h
  rfl := (keyEq_iff _ _).mpr rfl

mutual
/-- The IndexedDB key ordering: numbers sort before strings, which sort before
arrays; numbers compare numerically, strings lexicographically, and arrays
lexicographically by the same ordering (per the IndexedDB specification,
which the cursor range scans of the source rely on). -/
def keyLt : IDBKey → IDBKey → Bool
  | .num a, .num b => decide (a < b)
  | .num _, .str _ => true
  | .num _, .arr _ => true
  | .str _, .num _ => false
  | .str a, .str b => decide (a < b)
  | .str _, .arr _ => true
  | .arr a, .arr b => keyListLt a b
  | .arr _, .num _ => false
  | .arr _, .str _ => false
/-- Lexicographic order on key lists; a proper prefix sorts first. -/
def keyListLt : List IDBKey → List IDBKey → Bool
  | [], [] => false
  | [], _ :: _ => true
  | _ :: _, [] => false
  | a :: as, b :: bs => keyLt a b || (keyEq a b && keyListLt as bs)
end

/-- Non-strict IndexedDB key ordering. -/
def keyLe (a b : IDBKey) : Bool := keyLt a b || keyEq a b

/-- A persisted record: an insertion-ordered flat mapping from attribute name
to value, as produced by the model constructors of the source. -/
abbrev Record := List (String × IDBKey)

/-- Attribute lookup on a record; a missing attribute is JavaScript
undefined, modelled as none. -/
def getAttr (r : Record) (k : String) : Option IDBKey :=
  (r.find? (fun kv => kv.1 == k)).map (·.2)

/-- The four range operators accepted inside a query attribute descriptor. -/
inductive RangeOp where
  | greaterThan
  | greaterThanOrEqual
  | lessThan
  | lessThanOrEqual
  deriving DecidableEq, BEq

/-- A query attribute value: either a scalar (equality term) or a
range-operator descriptor object, whose entries keep their insertion order. -/
inductive QueryVal where
  | scalar (v : IDBKey)
  | range (ops : List (RangeOp × IDBKey))
  deriving DecidableEq

/-- A query object: insertion-ordered attribute/value pairs, as enumerated by
getKeysFromObject and getValuesFromObject of the mixin. -/
abbrev Query := List (String × QueryVal)

/-- An orderBy object: insertion-ordered attribute/direction pairs. -/
abbrev OrderBy := List (String × String)

/-- Whether a range descriptor object has the given operator property
(the indexOf check over Object.keys in the source). -/
def hasOp (ops : List (RangeOp × IDBKey)) (o : RangeOp) : Bool :=
  ops.any (fun p => p.1 == o)

/-- Property access for one operator of a range descriptor. -/
def opValue (ops : List (RangeOp × IDBKey)) (o : RangeOp) : Option IDBKey :=
  (ops.find? (fun p => p.1 == o)).map (·.2)

/-- The keys list of a possibly absent query object: getKeysFromObject returns
the empty list for null or undefined input. -/
def queryKeysOf (attrs : Option Query) : List String :=
  (attrs.getD []).map (·.1)

/-! ### isValidQuery (indexed-db.js lines 554 to 596)

The source counts attributes contributing a lower bound and an upper bound,
then compares the two counters through a `.length` property access.  A
JavaScript number has no `.length` property, so both accesses evaluate to
undefined, and the comparison chain collapses; the embedding reproduces
this literally. -/

/-- Property access of `.length` on a JavaScript number: numbers carry no
length property, so the access yields undefined (none). -/
def numberDotLength (_ : Nat) : Option Nat := none

/-- The JavaScript comparison of a possibly-undefined value with 0 using
the greater-than operator: undefined compares false. -/
def undefGtZero (a : Option Nat) : Bool :=
  match a with
  | none => false
  | some n => decide (n > 0)

/-- Number of query values contributing a lower bound: a scalar, or a
descriptor carrying greaterThanOrEqual or greaterThan. -/
def lowerboundCount (values : List QueryVal) : Nat :=
  values.foldl
    (fun c v =>
      match v with
      | .scalar _ => c + 1
      | .range ops =>
          if hasOp ops .greaterThanOrEqual || hasOp ops .greaterThan then c + 1 else c)
    0

/-- Number of query values contributing an upper bound: a scalar, or a
descriptor carrying lessThanOrEqual or lessThan. -/
def upperBoundCount (values : List QueryVal) : Nat :=
  values.foldl
    (fun c v =>
      match v with
      | .scalar _ => c + 1
      | .range ops =>
          if hasOp ops .lessThanOrEqual || hasOp ops .lessThan then c + 1 else c)
    0

/-- Embedding of base.isValidQuery.  The final comparison chain of the source
reads the `.length` property of the two numeric counters, which is undefined,
so the first comparison (undefined strictly equals undefined) is always true
and the function returns true for every multi-attribute query. -/
def isValidQuery (q : Query) : Bool :=
  let values := q.map (·.2)
  if values.length == 1 then true
  else
    let lower := lowerboundCount values
    let upper := upperBoundCount values
    if numberDotLength upper == numberDotLength lower then true
    else if numberDotLength lower != numberDotLength upper &&
        (undefGtZero (numberDotLength lower) && undefGtZero (numberDotLength upper)) then false
    else if numberDotLength lower != numberDotLength upper then true
    else true

/-! ### generateIDBKeyRange (indexed-db.js lines 605 to 672) -/

/-- The range descriptors produced by the IDBKeyRange factory functions used
by the source: a lower-bound-only range, an upper-bound-only range, or a
fully bounded range, each with open (exclusive) flags. -/
inductive IDBKeyRange where
  | lowerBound (k : IDBKey) (lopen : Bool)
  | upperBound (k : IDBKey) (uopen : Bool)
  | bound (lo hi : IDBKey) (lopen uopen : Bool)
  deriving DecidableEq

/-- In the source the branch guards read as: the tuple lengths differ AND
`lowerbound` (respectively `upperBound`).  Both operands are JavaScript
arrays, and an array — even an empty one — is always truthy, so the second
conjunct is constant. -/
def arrayTruthy (_ : List IDBKey) : Bool := true

/-- One step of the lower-bound tuple construction: a scalar contributes
itself; a descriptor contributes its greaterThanOrEqual value, else its
greaterThan value (also marking the bound open); otherwise nothing. -/
def lowerStep (acc : List IDBKey × Bool) (v : QueryVal) : List IDBKey × Bool :=
  match v with
  | .scalar x => (acc.1 ++ [x], acc.2)
  | .range ops =>
      match opValue ops .greaterThanOrEqual, opValue ops .greaterThan with
      | some x, _ => (acc.1 ++ [x], acc.2)
      | none, some x => (acc.1 ++ [x], true)
      | none, none => acc

/-- One step of the upper-bound tuple construction: a scalar contributes
itself; a descriptor contributes its lessThanOrEqual value, else its
lessThan value (also marking the bound open); otherwise nothing. -/
def upperStep (acc : List IDBKey × Bool) (v : QueryVal) : List IDBKey × Bool :=
  match v with
  | .scalar x => (acc.1 ++ [x], acc.2)
  | .range ops =>
      match opValue ops .lessThanOrEqual, opValue ops .lessThan with
      | some x, _ => (acc.1 ++ [x], acc.2)
      | none, some x => (acc.1 ++ [x], true)
      | none, none => acc

/-- A tuple of length 1 is unwrapped to its single scalar; any other tuple is
passed as an array key. -/
def unwrapBound (l : List IDBKey) : IDBKey :=
  match l with
  | [x] => x
  | _ => .arr l

/-- Embedding of base.generateIDBKeyRange.  Because the array truthiness
guards are constant, the branch selection depends only on whether the two
tuple lengths differ: if they differ the function always returns a
lower-bound-only range (the upper-bound branch is dead code), otherwise a
fully bounded range. -/
def generateIDBKeyRange (q : Query) : IDBKeyRange :=
  let values := q.map (·.2)
  let lower := values.foldl lowerStep ([], false)
  let upper := values.foldl upperStep ([], false)
  if lower.1.length != upper.1.length && arrayTruthy lower.1 then
    .lowerBound (unwrapBound lower.1) lower.2
  else if lower.1.length != upper.1.length && arrayTruthy upper.1 then
    .upperBound (unwrapBound upper.1) upper.2
  else
    .bound (unwrapBound lower.1) (unwrapBound upper.1) lower.2 upper.2

/-! ### getDirection (indexed-db.js lines 490 to 497) -/

/-- Embedding of base.getDirection: ascending traversal unless an orderBy
object is present whose first property value differs from the string "asc". -/
def getDirection (orderBy : Option OrderBy) : String :=
  match orderBy with
  | none => "next"
  | some ob => if ob.head?.map (·.2) == some "asc" then "next" else "prev"

/-! ### reduce and reduceOperators (indexed-db.js lines 325 to 390) -/

/-- The four comparison functions of base.reduceOperators, applied to a
possibly-undefined record attribute and a query bound.  JavaScript relational
comparison of same-typed numbers and strings is the native ordering; a
comparison involving undefined is false.  Mixed-type comparisons (which
coerce in JavaScript) do not occur for model attributes and are modelled as
false. -/
def reduceOperators (op : RangeOp) (a : Option IDBKey) (b : IDBKey) : Bool :=
  match op, a, b with
  | .greaterThan, some (.num x), .num y => decide (x > y)
  | .greaterThan, some (.str x), .str y => decide (y < x)
  | .greaterThanOrEqual, some (.num x), .num y => decide (x ≥ y)
  | .greaterThanOrEqual, some (.str x), .str y => !decide (x < y)
  | .lessThan, some (.num x), .num y => decide (x < y)
  | .lessThan, some (.str x), .str y => decide (x < y)
  | .lessThanOrEqual, some (.num x), .num y => decide (x ≤ y)
  | .lessThanOrEqual, some (.str x), .str y => !decide (y < x)
  | _, _, _ => false

/-- The inner loop of base.reduce over one operator descriptor: the running
isValid flag is overwritten by each rule evaluation and the loop breaks at
the first failing rule; an empty descriptor leaves the incoming flag
untouched. -/
def runRules (actual : Option IDBKey) (ops : List (RangeOp × IDBKey)) (acc : Bool) : Bool :=
  match ops with
  | [] => acc
  | (op, v) :: rest =>
      let valid := reduceOperators op actual v
      if valid then runRules actual rest valid else valid

/-- The attribute loop of base.reduce for one record.  A failing scalar term
exits the loop immediately (the callback returns false), but a failing
operator descriptor only breaks its inner rule loop: iteration continues
with the next attribute, whose result overwrites the flag. -/
def reduceEach (q : Query) (r : Record) (acc : Bool) : Bool :=
  match q with
  | [] => acc
  | (k, v) :: rest =>
      match v with
      | .range ops => reduceEach rest r (runRules (getAttr r k) ops acc)
      | .scalar sv =>
          let valid := getAttr r k == some sv
          if valid then reduceEach rest r valid else valid

/-- JavaScript less-than on two possibly-undefined attribute values, as used
by the sort comparator of base.reduce (undefined and mixed-type comparisons
are false). -/
def jsLtOpt : Option IDBKey → Option IDBKey → Bool
  | some (.num a), some (.num b) => decide (a < b)
  | some (.str a), some (.str b) => decide (a < b)
  | _, _ => false

/-- Stable insertion into a list sorted by the strictly-before test. -/
def stableInsert (lt : α → α → Bool) (x : α) : List α → List α
  | [] => [x]
  | y :: ys => if lt x y then x :: y :: ys else y :: stableInsert lt x ys

/-- Stable sort by a strictly-before test, modelling the (specified stable)
JavaScript Array.prototype.sort with a consistent comparator: elements are
inserted in input order, each after all elements it is not strictly before. -/
def stableSort (lt : α → α → Bool) (l : List α) : List α :=
  l.foldl (fun acc x => stableInsert lt x acc) []

/-- The sort step of base.reduce: sorts by the first orderBy attribute with
the comparator of the source (ascending on "asc", otherwise descending). -/
def reduceSort (l : List Record) (ob : OrderBy) : List Record :=
  let sortAttribute := ob.head?.map (·.1)
  let direction := ob.head?.map (·.2)
  let value := fun (r : Record) => sortAttribute.bind (getAttr r)
  stableSort
    (fun a b =>
      if direction == some "asc" then jsLtOpt (value a) (value b)
      else jsLtOpt (value b) (value a))
    l

/-- Embedding of base.reduce: filter the results with the attribute loop,
then sort when an orderBy object is given (a null attributes object
contributes no keys, retaining every record). -/
def reduceRecords (results : List Record) (attrs : Option Query) (orderBy : Option OrderBy) :
    List Record :=
  let filtered := results.filter (fun r => reduceEach (attrs.getD []) r true)
  match orderBy with
  | some ob => reduceSort filtered ob
  | none => filtered

/-! ### Promise outcomes

Every facade operation returns a promise.  In the embedding an operation
either fulfills with a value, rejects, or stays pending forever.  The
pending outcome models an exception thrown inside an asynchronous engine
callback (for instance inside the onsuccess handler of indexedDB.open):
such an exception is not caught by the Promise constructor, so the wrapping
promise never settles. -/

inductive POutcome (α : Type) where
  | fulfilled (v : α)
  | rejected
  | pending
  deriving DecidableEq

/-! ### The IndexedDB engine state -/

/-- A declared index spec: a single attribute name or an ordered tuple of
attribute names (compound index), as in the context.indexes registry. -/
inductive IndexSpec where
  | single (a : String)
  | compound (as : List String)
  deriving DecidableEq

/-- The name of the object-store index created for a spec: arrays are joined
with commas by Array.prototype.toString, single attributes name themselves. -/
def specString : IndexSpec → String
  | .single a => a
  | .compound as => String.intercalate "," as

/-- The IndexedDB engine state: one object store of records per registered
model (base.models), plus the context.indexes registry.  A model name is
registered exactly when it has a store entry. -/
structure IDBDatabase where
  stores : List (String × List Record)
  indexes : List (String × List IndexSpec)
  deriving DecidableEq

/-- Lookup of a registered model store; none models an undefined entry of
base.models. -/
def lookupStore (db : IDBDatabase) (name : String) : Option (List Record) :=
  (db.stores.find? (fun e => e.1 == name)).map (·.2)

/-- Lookup of the declared index list of a model; none models an undefined
entry of context.indexes (an empty declared list is a present, truthy
array and is distinct from an absent entry). -/
def lookupIndexes (db : IDBDatabase) (name : String) : Option (List IndexSpec) :=
  (db.indexes.find? (fun e => e.1 == name)).map (·.2)

/-- Replace the store contents of one model. -/
def updateStore (db : IDBDatabase) (name : String) (rs : List Record) : IDBDatabase :=
  ⟨db.stores.map (fun e => if e.1 == name then (e.1, rs) else e), db.indexes⟩

/-- Strict less-than on possibly-undefined keys under the IndexedDB key
ordering, for cursor orderings (an absent key never occurs for stored
records, which always carry their primary key). -/
def keyLtOpt : Option IDBKey → Option IDBKey → Bool
  | some a, some b => keyLt a b
  | _, _ => false

/-- An object-store cursor opened without a range visits the records in
ascending primary-key (id) order. -/
def cursorAll (records : List Record) : List Record :=
  stableSort (fun a b => keyLtOpt (getAttr a "id") (getAttr b "id")) records

/-- The key a record contributes to a declared index: the attribute value for
a single index, the array of attribute values for a compound index.  A record
missing one of the attributes has no key and is absent from the index. -/
def indexKeyPath : IndexSpec → Record → Option IDBKey
  | .single a, r => getAttr r a
  | .compound as, r => (as.mapM (getAttr r)).map .arr

/-- Membership of a key in an IDBKeyRange, per the IndexedDB specification. -/
def inKeyRange : IDBKeyRange → IDBKey → Bool
  | .lowerBound k o, x => if o then keyLt k x else keyLe k x
  | .upperBound k o, x => if o then keyLt x k else keyLe x k
  | .bound lo hi lo2 ho2, x =>
      (if lo2 then keyLt lo x else keyLe lo x) && (if ho2 then keyLt x hi else keyLe x hi)

/-- Embedding of base.findObjectsByAttributeNoIndex for a registered model:
collect every record via a full cursor scan (primary-key order), then reduce
when an attributes or orderBy object was supplied. -/
def findNoIndex (records : List Record) (attrs : Option Query) (orderBy : Option OrderBy) :
    List Record :=
  let results := cursorAll records
  if attrs.isSome || orderBy.isSome then reduceRecords results attrs orderBy else results

/-- Embedding of the index cursor of base.findObjectsByAttributeWithIndex:
the entries of the named index whose keys fall in the range, visited in
ascending index-key order (ties in ascending primary-key order) for the
direction "next", and in the exact reverse order for "prev". -/
def findWithIndex (records : List Record) (spec : IndexSpec) (range : IDBKeyRange)
    (dir : String) : List Record :=
  let entries := records.filterMap (fun r => (indexKeyPath spec r).map (fun k => (k, r)))
  let inR := entries.filter (fun e => inKeyRange range e.1)
  let sorted := stableSort
    (fun a b => keyLt a.1 b.1 || (keyEq a.1 b.1 && keyLtOpt (getAttr a.2 "id") (getAttr b.2 "id")))
    inR
  let ordered := if dir == "next" then sorted else sorted.reverse
  ordered.map (·.2)

/-- Embedding of base.findBy of the IndexedDB engine: reject on an unknown
model; take the no-index scan when the model declares no index entry or the
query is judged invalid; otherwise use the index whose spec string equals the
comma-joined query keys, if any, and fall back to the scan. -/
def idbFindBy (db : IDBDatabase) (name : String) (attrs : Option Query)
    (orderBy : Option OrderBy) : POutcome (List Record) :=
  match lookupStore db name with
  | none => .rejected
  | some records =>
      let queryKeys := queryKeysOf attrs
      match lookupIndexes db name with
      | none => .fulfilled (findNoIndex records attrs orderBy)
      | some specs =>
          if !isValidQuery (attrs.getD []) then .fulfilled (findNoIndex records attrs orderBy)
          else
            match specs.find? (fun s => String.intercalate "," queryKeys == specString s) with
            | some spec =>
                .fulfilled (findWithIndex records spec (generateIDBKeyRange (attrs.getD []))
                  (getDirection orderBy))
            | none => .fulfilled (findNoIndex records attrs orderBy)

/-- Embedding of base.findObjectById: an object-store get on the raw value of
the id property of the query.  A range descriptor is not a valid key, so the
get request throws inside the asynchronous open callback and the promise
never settles. -/
def idbFindObjectById (db : IDBDatabase) (name : String) (qv : Option QueryVal) :
    POutcome (Option Record) :=
  match lookupStore db name with
  | none => .rejected
  | some records =>
      match qv with
      | some (.scalar v) => .fulfilled (records.find? (fun r => getAttr r "id" == some v))
      | _ => .pending

/-- Embedding of base.findOneBy of the IndexedDB engine: a query whose key
list is exactly the id attribute is special-cased to a direct get; otherwise
the first element of the findBy result, or null when it is empty. -/
def idbFindOneBy (db : IDBDatabase) (name : String) (attrs : Option Query)
    (orderBy : Option OrderBy) : POutcome (Option Record) :=
  if queryKeysOf attrs == ["id"] then
    idbFindObjectById db name
      (attrs.bind (fun q => (q.find? (fun kv => kv.1 == "id")).map (·.2)))
  else
    match idbFindBy db name attrs orderBy with
    | .fulfilled l => .fulfilled l.head?
    | .rejected => .rejected
    | .pending => .pending

/-- The upsert performed by an object-store put with the key path id: the
record replaces the stored record with the same id, or is added.  A record
without an id goes to an auto-increment store, which assigns a fresh key
(the assigned key itself is not modelled). -/
def idbPut (records : List Record) (e : Record) : List Record :=
  match getAttr e "id" with
  | none => records ++ [e]
  | some i =>
      if records.any (fun r => getAttr r "id" == some i) then
        records.map (fun r => if getAttr r "id" == some i then e else r)
      else records ++ [e]

/-- Embedding of base.insertObject of the IndexedDB engine.  The model lookup
happens inside the asynchronous open callback; for an unknown model name the
property access throws there, so the promise never settles (it does not
reject) and the stores are untouched.  createFromObject followed by clone
preserves the data attributes of the entity. -/
def idbInsertObject (db : IDBDatabase) (name : String) (e : Record) :
    POutcome Unit × IDBDatabase :=
  match lookupStore db name with
  | none => (.pending, db)
  | some records => (.fulfilled (), updateStore db name (idbPut records e))

/-- Embedding of base.deleteBy of the IndexedDB engine: find the matching
records (no orderBy), fulfill immediately when there are none, and otherwise
delete each found item by its id.  An item without an id would make the
delete request throw inside the open callback, leaving the aggregate
pending.  The third component lists the ids of the issued engine delete
operations. -/
def idbDeleteBy (db : IDBDatabase) (name : String) (attrs : Option Query) :
    POutcome Unit × IDBDatabase × List IDBKey :=
  match idbFindBy db name attrs none with
  | .rejected => (.rejected, db, [])
  | .pending => (.pending, db, [])
  | .fulfilled items =>
      if items.length == 0 then (.fulfilled (), db, [])
      else if items.all (fun r => (getAttr r "id").isSome) then
        let ids := items.filterMap (fun r => getAttr r "id")
        match lookupStore db name with
        | none => (.rejected, db, [])
        | some records =>
            (.fulfilled (),
              updateStore db name
                (records.filter (fun r => !(ids.any (fun i => getAttr r "id" == some i)))),
              ids)
      else (.pending, db, [])

/-! ### The WebSQL engine (web-sql.js)

The relational engine generates SQL text and binds parameters positionally.
The embedding renders the clause strings exactly as the source builds them;
execution of a statement is modelled only for statements whose WHERE clause
is well formed (a single WHERE prefix with AND-joined terms, the shape the
clause generator produces when it is not mis-nesting), since the SQL engine
rejects a malformed statement, which surfaces as a rejected promise. -/

/-- The base.operators map of the WebSQL implementation. -/
def opSql : RangeOp → String
  | .greaterThan => ">"
  | .greaterThanOrEqual => ">="
  | .lessThan => "<"
  | .lessThanOrEqual => "<="

/-- The base.isFirst mixin helper. -/
def isFirstIdx (i : Nat) : Bool := i == 0

/-- The base.isLast mixin helper. -/
def isLastIdx (i len : Nat) : Bool := i + 1 == len

/-- Embedding of base.generateWhereClause.  For an operator descriptor the
source tests isFirst and isLast against the operator index within that
descriptor, not against the position of the attribute in the whole query, so
every descriptor attribute opens its own WHERE prefix and closes without a
joining AND. -/
def generateWhereClause (q : Query) : String :=
  q.enum.foldl
    (fun sql e =>
      match e.2.2 with
      | .scalar _ =>
          sql ++ (if isFirstIdx e.1 then " WHERE " else "") ++ e.2.1 ++ " = ? " ++
            (if !isLastIdx e.1 q.length then "AND " else "")
      | .range ops =>
          ops.enum.foldl
            (fun sql2 oe =>
              sql2 ++ (if isFirstIdx oe.1 then " WHERE " else "") ++ e.2.1 ++ " " ++
                opSql oe.2.1 ++ " ? " ++
                (if !isLastIdx oe.1 ops.length then "AND " else ""))
            sql)
    ""

/-- Embedding of base.generateOrderByClause. -/
def generateOrderByClause (ob : OrderBy) : String :=
  ob.enum.foldl
    (fun sql e =>
      sql ++ (if isFirstIdx e.1 then " ORDER BY " else "") ++ e.2.1 ++ " " ++ e.2.2 ++ " " ++
        (if !isLastIdx e.1 ob.length then ", " else ""))
    ""

/-- Embedding of base.generateSelectQuery. -/
def generateSelectQuery (modelName : String) (attrs : Option Query) (orderBy : Option OrderBy) :
    String :=
  "SELECT * FROM " ++ modelName ++
    (match attrs with
     | some q => generateWhereClause q
     | none => "") ++
    (match orderBy with
     | some ob => generateOrderByClause ob
     | none => "")

/-- Embedding of base.generateDeleteQuery. -/
def generateDeleteQuery (modelName : String) (attrs : Option Query) : String :=
  "DELETE FROM " ++ modelName ++
    (match attrs with
     | some q => generateWhereClause q
     | none => "")

/-- The ordered clause terms the WHERE generator walks: one term per
attribute/operator pair (none marks a scalar equality term), in the order
the clause text and the positional parameters are built. -/
def whereTerms (q : Query) : List (String × Option RangeOp × IDBKey) :=
  q.foldr
    (fun kv acc =>
      match kv.2 with
      | .scalar sv => (kv.1, none, sv) :: acc
      | .range ops => (ops.map (fun ov => (kv.1, some ov.1, ov.2))) ++ acc)
    []

/-- The text of one clause term as the generator writes it. -/
def termSql (t : String × Option RangeOp × IDBKey) : String :=
  match t.2.1 with
  | none => t.1 ++ " = ? "
  | some op => t.1 ++ " " ++ opSql op ++ " ? "

/-- The well-formed WHERE clause for the terms of a query: a single WHERE
prefix with the terms joined by AND (empty for an empty term list).  A
statement whose generated clause differs from this shape is syntactically
invalid SQL. -/
def canonicalWhereClause (q : Query) : String :=
  match whereTerms q with
  | [] => ""
  | ts => " WHERE " ++ String.join ((ts.map termSql).intersperse "AND ")

/-- The deep value extraction getValuesFromObject(attributes, true): scalar
values and, for descriptors, the operator values, flattened in insertion
order.  These are the positional parameters base.findBy binds. -/
def getValuesFromObjectDeep (q : Query) : List IDBKey :=
  q.foldl
    (fun acc kv =>
      match kv.2 with
      | .scalar v => acc ++ [v]
      | .range ops => acc ++ ops.map (·.2))
    []

/-- Evaluation of one SQL clause term against a row: equality for scalar
terms, the mapped relational operator otherwise.  On same-typed numbers and
strings SQL comparison is the native ordering, and a NULL (absent) column
compares false, which the shared reduceOperators embedding already
captures. -/
def sqlTermHolds (t : String × Option RangeOp × IDBKey) (r : Record) : Bool :=
  match t.2.1 with
  | none => getAttr r t.1 == some t.2.2
  | some op => reduceOperators op (getAttr r t.1) t.2.2

/-- Whether every direction of an ORDER BY clause is valid SQL text (the
source interpolates the raw direction string into the statement). -/
def orderDirectionsOk (ob : OrderBy) : Bool :=
  ob.all (fun e => e.2 == "asc" || e.2 == "desc")

/-- Row ordering of an SQL ORDER BY list: the first attribute on which the
rows differ decides, flipped for "desc"; rows equal on every attribute keep
their table order (ties are modelled stably). -/
def sqlRowLt : OrderBy → Record → Record → Bool
  | [], _, _ => false
  | (k, d) :: rest, a, b =>
      if jsLtOpt (getAttr a k) (getAttr b k) then d == "asc"
      else if jsLtOpt (getAttr b k) (getAttr a k) then d == "desc"
      else sqlRowLt rest a b

/-- The WebSQL engine state: one table of rows per registered model. -/
structure WebSQLDatabase where
  tables : List (String × List Record)
  deriving DecidableEq

/-- Lookup of a registered model table; none models an undefined entry of
base.models. -/
def lookupTable (db : WebSQLDatabase) (name : String) : Option (List Record) :=
  (db.tables.find? (fun e => e.1 == name)).map (·.2)

/-- Replace the rows of one table. -/
def updateTable (db : WebSQLDatabase) (name : String) (rs : List Record) : WebSQLDatabase :=
  ⟨db.tables.map (fun e => if e.1 == name then (e.1, rs) else e)⟩

/-- Embedding of base.findBy of the WebSQL engine.  For an unknown model the
synchronous generateSelectQuery call inside the Promise executor throws, so
the promise rejects.  A malformed generated statement makes executeSql fail,
surfacing as a rejected transaction; a well-formed statement filters the
rows by its clause terms with the deep values bound positionally, then
orders them. -/
def webSqlFindBy (db : WebSQLDatabase) (name : String) (attrs : Option Query)
    (orderBy : Option OrderBy) : POutcome (List Record) :=
  match lookupTable db name with
  | none => .rejected
  | some rows =>
      let whereOk :=
        match attrs with
        | some q => generateWhereClause q == canonicalWhereClause q
        | none => true
      let orderOk :=
        match orderBy with
        | some ob => orderDirectionsOk ob
        | none => true
      if !(whereOk && orderOk) then .rejected
      else
        let filtered :=
          match attrs with
          | some q => rows.filter (fun r => (whereTerms q).all (fun t => sqlTermHolds t r))
          | none => rows
        match orderBy with
        | some ob => .fulfilled (stableSort (sqlRowLt ob) filtered)
        | none => .fulfilled filtered

/-- Embedding of base.findOneBy of the WebSQL engine: the first element of
the findBy result, or null when it is empty. -/
def webSqlFindOneBy (db : WebSQLDatabase) (name : String) (attrs : Option Query)
    (orderBy : Option OrderBy) : POutcome (Option Record) :=
  match webSqlFindBy db name attrs orderBy with
  | .fulfilled l => .fulfilled l.head?
  | .rejected => .rejected
  | .pending => .pending

/-- The INSERT OR REPLACE upsert on a table whose primary key is id: a
conflicting row (same id) is deleted and the new row appended; a row without
an id conflicts with nothing. -/
def sqlPut (rows : List Record) (e : Record) : List Record :=
  match getAttr e "id" with
  | none => rows ++ [e]
  | some i => rows.filter (fun r => !(getAttr r "id" == some i)) ++ [e]

/-- Embedding of base.insertObject of the WebSQL engine.  The model lookup and
createFromObject run synchronously inside the Promise executor, so an unknown
model name rejects the promise and the tables are untouched; otherwise the
generated INSERT OR REPLACE statement upserts the data attributes of the
entity. -/
def webSqlInsertObject (db : WebSQLDatabase) (name : String) (e : Record) :
    POutcome Unit × WebSQLDatabase :=
  match lookupTable db name with
  | none => (.rejected, db)
  | some rows => (.fulfilled (), updateTable db name (sqlPut rows e))

/-- Embedding of base.deleteBy of the WebSQL engine.  An unknown model rejects
as in findBy.  The delete path binds the shallow values of the query (the
source omits the deep flag here), so a query containing an operator
descriptor binds the descriptor object itself; the resulting
parameter-count mismatch or ill-typed binding is modelled conservatively as
a failed execution, alongside a malformed clause.  A well-formed scalar-only
statement deletes the matching rows; absent attributes delete every row. -/
def webSqlDeleteBy (db : WebSQLDatabase) (name : String) (attrs : Option Query) :
    POutcome Unit × WebSQLDatabase :=
  match lookupTable db name with
  | none => (.rejected, db)
  | some rows =>
      match attrs with
      | none => (.fulfilled (), updateTable db name [])
      | some q =>
          let whereOk := generateWhereClause q == canonicalWhereClause q
          let paramsOk := q.all (fun kv => match kv.2 with | .scalar _ => true | .range _ => false)
          if whereOk && paramsOk then
            (.fulfilled (),
              updateTable db name
                (rows.filter (fun r => !((whereTerms q).all (fun t => sqlTermHolds t r)))))
          else (.rejected, db)

/-! ### The reference matching predicate of the specification -/

/-- The record-matching predicate stated by the ScanReducer contract of the
specification (section 4.4): a record matches a query exactly when, for
every queried attribute, every range operator on the descriptor of that
attribute evaluates true against the value of the record, and every scalar
term holds by strict equality. -/
def matchesAllTerms (q : Query) (r : Record) : Bool :=
  q.all
    (fun kv =>
      match kv.2 with
      | .scalar sv => getAttr r kv.1 == some sv
      | .range ops => ops.all (fun ov => reduceOperators ov.1 (getAttr r kv.1) ov.2))

/-! ### Store lemmas for the upsert operations -/

/-- Number of records in a store carrying a given id. -/
def countById (s : List Record) (i : IDBKey) : Nat :=
  (s.filter (fun r => getAttr r "id" == some i)).length

/-- The record an object-store get by key returns: the first (under the
uniqueness invariant, the only) record with the given id. -/
def findById (s : List Record) (i : IDBKey) : Option Record :=
  s.find? (fun r => getAttr r "id" == some i)

theorem replace_filter_length (p : α → Bool) (e : α) (hp : p e = true) :
    ∀ s : List α, ((s.map (fun r => if p r then e else r)).filter p).length = (s.filter p).length
  | [] => rfl
  | a :: as => by
      cases ha : p a with
      | true => simp [ha, hp, replace_filter_length p e hp as]
      | false => simp [ha, replace_filter_length p e hp as]

theorem replace_find (p : α → Bool) (e : α) (hp : p e = true) :
    ∀ s : List α, s.any p = true → (s.map (fun r => if p r then e else r)).find? p = some e
  | a :: as, h => by
      cases ha : p a with
      | true => simp [List.find?, ha, hp]
      | false =>
          have hrest : as.any p = true := by simpa [ha] using h
          simp [List.find?, ha, replace_find p e hp as hrest]

theorem append_find (p : α → Bool) (e : α) (hp : p e = true) :
    ∀ s : List α, s.any p = false → (s ++ [e]).find? p = some e
  | [], _ => by simp [List.find?, hp]
  | a :: as, h => by
      have ha : p a = false := by
        cases hq : p a with
        | true => simp [hq] at h
        | false => rfl
      have hrest : as.any p = false := by simpa [ha] using h
      simpa [List.find?, ha] using append_find p e hp as hrest

theorem idbPut_countById (s : List Record) (e : Record) (i : IDBKey)
    (he : getAttr e "id" = some i) (hs : countById s i ≤ 1) :
    countById (idbPut s e) i = 1 := by
  have hp : (fun r => getAttr r "id" == some i) e = true := by simp [he]
  unfold idbPut countById at *
  rw [he]
  cases ha : s.any (fun r => getAttr r "id" == some i) with
  | true =>
      have h1 : (s.filter (fun r => getAttr r "id" == some i)) ≠ [] := by
        rcases List.any_eq_true.mp ha with ⟨x, hx, hpx⟩
        have : x ∈ s.filter (fun r => getAttr r "id" == some i) :=
          List.mem_filter.mpr ⟨hx, hpx⟩
        exact List.ne_nil_of_mem this
      have h2 : 1 ≤ (s.filter (fun r => getAttr r "id" == some i)).length :=
        Nat.one_le_iff_ne_zero.mpr (fun hz => h1 (List.eq_nil_of_length_eq_zero hz))
      simp only [ha, if_true]
      rw [replace_filter_length _ e hp s]
      omega
  | false =>
      have h0 : s.filter (fun r => getAttr r "id" == some i) = [] := by
        apply List.filter_eq_nil_iff.mpr
        intro x hx hpx
        have hcontra : s.any (fun r => getAttr r "id" == some i) = true :=
          List.any_eq_true.mpr ⟨x, hx, hpx⟩
        rw [ha] at hcontra
        cases hcontra
      simp [ha, List.filter_append, h0, hp]

theorem idbPut_findById (s : List Record) (e : Record) (i : IDBKey)
    (he : getAttr e "id" = some i) :
    findById (idbPut s e) i = some e := by
  have hp : (fun r => getAttr r "id" == some i) e = true := by simp [he]
  unfold idbPut findById
  rw [he]
  cases ha : s.any (fun r => getAttr r "id" == some i) with
  | true => simp only [ha, if_true]; exact replace_find _ e hp s ha
  | false => simp only [ha, if_false]; exact append_find _ e hp s ha

theorem sqlPut_countById (t : List Record) (e : Record) (i : IDBKey)
    (he : getAttr e "id" = some i) :
    countById (sqlPut t e) i = 1 := by
  have hp : (fun r => getAttr r "id" == some i) e = true := by simp [he]
  unfold sqlPut countById
  rw [he]
  rw [List.filter_append, List.filter_filter]
  simp [hp]

theorem sqlPut_findById (t : List Record) (e : Record) (i : IDBKey)
    (he : getAttr e "id" = some i) :
    findById (sqlPut t e) i = some e := by
  have hp : (fun r => getAttr r "id" == some i) e = true := by simp [he]
  unfold sqlPut findById
  rw [he]
  apply append_find _ e hp
  simp [List.any_filter]

/-! ### Concrete fixtures for the claims -/

/-- A single-attribute upper-bound query on attribute a. -/
def qC1 : Query := [("a", .range [(.lessThanOrEqual, .num 5)])]

/-- A record matching qC1. -/
def rC1a : Record := [("id", .num 1), ("a", .num 3)]

/-- A record not matching qC1. -/
def rC1b : Record := [("id", .num 2), ("a", .num 10)]

/-- The model m with a declared single index on a. -/
def dbC1idx : IDBDatabase := ⟨[("m", [rC1a, rC1b])], [("m", [.single "a"])]⟩

/-- The same data with no index declarations. -/
def dbC1noidx : IDBDatabase := ⟨[("m", [rC1a, rC1b])], []⟩

/-- The same data on the relational engine. -/
def wdbC1 : WebSQLDatabase := ⟨[("m", [rC1a, rC1b])]⟩

/-- The unbalanced query of the specification: one attribute upper-bounded
only, one bounded on both sides. -/
def qC2 : Query :=
  [("a", .range [(.lessThanOrEqual, .num 15)]),
   ("b", .range [(.greaterThanOrEqual, .num 1), (.lessThanOrEqual, .num 10)])]

/-- A record not matching qC2 (a is 20, above the upper bound; b is 50,
above its upper bound). -/
def rC2 : Record := [("id", .num 1), ("a", .num 20), ("b", .num 50)]

/-- The model m with a declared compound index on a, b. -/
def dbC2idx : IDBDatabase := ⟨[("m", [rC2])], [("m", [.compound ["a", "b"]])]⟩

/-- The same data with no index declarations. -/
def dbC2noidx : IDBDatabase := ⟨[("m", [rC2])], []⟩

/-- An upper-bound-only single-attribute query for the range compiler. -/
def qC3 : Query := [("a", .range [(.lessThanOrEqual, .num 5)])]

/-- The multi-attribute query of the usage documentation: a scalar term plus
a both-sided range descriptor. -/
def qC4 : Query :=
  [("studio", .scalar (.num 5671)),
   ("date", .range [(.greaterThanOrEqual, .str "2014-08-14"),
                    (.lessThanOrEqual, .str "2014-08-18")])]

/-- A query whose first attribute carries a failing range operator and whose
second attribute is a passing scalar term. -/
def qC5 : Query := [("a", .range [(.greaterThan, .num 5)]), ("b", .scalar (.num 1))]

/-- A record failing the range operator of qC5 on a while matching the
scalar term on b. -/
def rC5 : Record := [("id", .num 1), ("a", .num 3), ("b", .num 1)]

/-- An upper-only two-attribute query (the shape the limitations section of
the project documentation lists as valid). -/
def qC7 : Query :=
  [("foo", .range [(.lessThanOrEqual, .num 15)]),
   ("bar", .range [(.lessThanOrEqual, .num 10)])]

/-- A record far outside both upper bounds of qC7. -/
def rC7 : Record := [("id", .num 1), ("foo", .num 100), ("bar", .num 100)]

/-- The model m with a declared compound index on foo, bar. -/
def dbC7 : IDBDatabase := ⟨[("m", [rC7])], [("m", [.compound ["foo", "bar"]])]⟩

/-- An engine state registering only the model m. -/
def dbC8 : IDBDatabase := ⟨[("m", [])], []⟩

/-- The relational engine state registering only the model m. -/
def wdbC8 : WebSQLDatabase := ⟨[("m", [])]⟩

/-- An entity for insertion attempts against an unregistered model name. -/
def eC8 : Record := [("id", .num 1)]

/-- An engine state with a registered model and an empty store. -/
def dbC9 : IDBDatabase := ⟨[("m", [])], []⟩

/-! ### Claims -/

/-- C1: Path equivalence is violated by the code.  For the model m holding
the records rC1a and rC1b and the query qC1 (a lessThanOrEqual 5), the
INDEXED path (reached when the single index on a is declared) returns no
records, while the SCAN path (no index declared) and the RELATIONAL path
both return exactly the matching record rC1a — which the reference
predicate confirms is a match.  The indexed path is wrong because the
range compiler emits a lower-bound-only range keyed on the empty tuple for
an upper-only query, and no scalar index key is greater than an array key. -/
theorem c1_findBy_path_divergence :
    idbFindBy dbC1idx "m" (some qC1) none = .fulfilled [] ∧
    idbFindBy dbC1noidx "m" (some qC1) none = .fulfilled [rC1a] ∧
    webSqlFindBy wdbC1 "m" (some qC1) none = .fulfilled [rC1a] ∧
    matchesAllTerms qC1 rC1a = true := by decide

/-- C2: The validity rule is not implemented.  The unbalanced query qC2
(one lower bound, two upper bounds) is judged VALID by isValidQuery — the
source compares the length property of two numbers, which is undefined, so
the balanced-count rule is dead code — and consequently findBy with the
compound index declared takes the indexed path, returning a different
result than the scan path it was documented to fall back to. -/
theorem c2_isValidQuery_accepts_unbalanced :
    isValidQuery qC2 = true ∧
    idbFindBy dbC2idx "m" (some qC2) none = .fulfilled [rC2] ∧
    idbFindBy dbC2noidx "m" (some qC2) none = .fulfilled [] := by decide

/-- C3: For a query with only upper-tuple contributions, generateIDBKeyRange
does not produce an upper-bound-only range: the truthiness guard on the
lower tuple array is constant, so the function returns a lower-bound-only
range whose bound is the empty tuple. -/
theorem c3_upper_only_query_builds_lower_range :
    generateIDBKeyRange qC3 = .lowerBound (.arr []) false ∧
    generateIDBKeyRange qC3 ≠ .upperBound (.num 5) false := by decide

/-- C4: generateWhereClause does not emit exactly one WHERE prefix: for the
documented query qC4 (scalar studio term followed by a two-operator date
descriptor) it emits a second WHERE prefix before the descriptor terms and
drops the joining AND, because the first/last tests inside a descriptor use
the operator index rather than the clause position.  The positional
parameters extracted by findBy are nonetheless in clause-term order. -/
theorem c4_where_clause_double_where :
    generateWhereClause qC4 = " WHERE studio = ? AND  WHERE date >= ? AND date <= ? " ∧
    generateWhereClause qC4 ≠ canonicalWhereClause qC4 ∧
    getValuesFromObjectDeep qC4 = [.num 5671, .str "2014-08-14", .str "2014-08-18"] := by decide

/-- C5: reduce retains a record that fails a range operator on one attribute
when a later queried attribute passes: the running isValid flag is
overwritten per attribute and a failing operator descriptor does not stop
the attribute loop.  The record rC5 fails the greaterThan operator of qC5
on a, yet the passing scalar term on b resurrects it. -/
theorem c5_reduce_retains_failing_record :
    reduceRecords [rC5] (some qC5) none = [rC5] ∧
    matchesAllTerms qC5 rC5 = false := by decide

/-- C6: Upsert idempotence.  On both engine variants, inserting an entity
with id i and then a second entity with the same id leaves exactly one
record with that id in the store, and findOneBy on that id returns the
second entity (its attribute values win), provided the store respected key
uniqueness beforehand. -/
theorem c6_upsert_idempotent (s t : List Record) (e1 e2 : Record) (i : IDBKey)
    (idx : List (String × List IndexSpec))
    (hs : countById s i ≤ 1)
    (h1 : getAttr e1 "id" = some i) (h2 : getAttr e2 "id" = some i) :
    countById (idbPut (idbPut s e1) e2) i = 1 ∧
    idbFindOneBy ⟨[("m", idbPut (idbPut s e1) e2)], idx⟩ "m"
      (some [("id", QueryVal.scalar i)]) none = .fulfilled (some e2) ∧
    countById (sqlPut (sqlPut t e1) e2) i = 1 ∧
    webSqlFindOneBy ⟨[("m", sqlPut (sqlPut t e1) e2)]⟩ "m"
      (some [("id", QueryVal.scalar i)]) none = .fulfilled (some e2) := by
  have hfind := idbPut_findById (idbPut s e1) e2 i h2
  unfold findById at hfind
  have hT2 : (sqlPut (sqlPut t e1) e2).filter (fun r => getAttr r "id" == some i) = [e2] := by
    simp only [sqlPut, h1, h2]
    rw [List.filter_append, List.filter_filter]
    simp [h2]
  refine ⟨?_, ?_, ?_, ?_⟩
  · exact idbPut_countById _ e2 i h2 (le_of_eq (idbPut_countById s e1 i h1 hs))
  · simp [idbFindOneBy, queryKeysOf, idbFindObjectById, lookupStore, hfind]
  · exact sqlPut_countById _ e2 i h2
  · have hok : generateWhereClause [("id", QueryVal.scalar i)] =
        canonicalWhereClause [("id", QueryVal.scalar i)] := rfl
    simp [webSqlFindOneBy, webSqlFindBy, lookupTable, whereTerms, sqlTermHolds, hT2, hok]

/-- Witness for C6 at a concrete store and pair of entities sharing id 7. -/
theorem c6_upsert_idempotent_witness :
    countById [] (.num 7) ≤ 1 ∧
    getAttr [("id", .num 7), ("t", .str "a")] "id" = some (.num 7) ∧
    getAttr [("id", .num 7), ("t", .str "b")] "id" = some (.num 7) ∧
    idbFindOneBy
      ⟨[("m", idbPut (idbPut [] [("id", .num 7), ("t", .str "a")])
          [("id", .num 7), ("t", .str "b")])], []⟩ "m"
      (some [("id", QueryVal.scalar (.num 7))]) none =
      .fulfilled (some [("id", .num 7), ("t", .str "b")]) :=
  ⟨by decide, by decide, by decide,
    (c6_upsert_idempotent [] [] [("id", .num 7), ("t", .str "a")]
      [("id", .num 7), ("t", .str "b")] (.num 7) []
      (by decide) (by decide) (by decide)).2.1⟩

/-- C7: The empty-result contract is violated.  The query qC7 matches no
stored record of the model m (the reference predicate rejects its only
record rC7), yet findBy returns that record — the indexed path compiles the
upper-only query to a lower bound of the empty tuple, below every compound
key — and findOneBy returns it instead of null. -/
theorem c7_no_match_query_returns_records :
    matchesAllTerms qC7 rC7 = false ∧
    idbFindBy dbC7 "m" (some qC7) none = .fulfilled [rC7] ∧
    idbFindOneBy dbC7 "m" (some qC7) none = .fulfilled (some rC7) := by decide

/-- C8 counterexample: on the index-engine variant, insert against an
unregistered model name does not reject — the model lookup throws inside
the asynchronous open callback, so the promise never settles. -/
theorem c8_idb_insert_unknown_model_not_rejected :
    (idbInsertObject dbC8 "article" eC8).1 = POutcome.pending ∧
    (idbInsertObject dbC8 "article" eC8).1 ≠ POutcome.rejected := by decide

/-- C8 (amended): for a model name with no registered descriptor, findBy,
findOneBy and deleteBy reject on both engine variants and insert rejects on
the relational variant, in every case leaving the stored data unchanged;
on the index-engine variant insert also leaves the data unchanged but its
promise never settles instead of rejecting. -/
theorem c8_unknown_model_outcomes (db : IDBDatabase) (wdb : WebSQLDatabase) (name : String)
    (attrs : Option Query) (orderBy : Option OrderBy) (e : Record)
    (h1 : lookupStore db name = none) (h2 : lookupTable wdb name = none) :
    idbFindBy db name attrs orderBy = .rejected ∧
    idbFindOneBy db name attrs orderBy = .rejected ∧
    idbDeleteBy db name attrs = (.rejected, db, []) ∧
    idbInsertObject db name e = (.pending, db) ∧
    webSqlFindBy wdb name attrs orderBy = .rejected ∧
    webSqlFindOneBy wdb name attrs orderBy = .rejected ∧
    webSqlDeleteBy wdb name attrs = (.rejected, wdb) ∧
    webSqlInsertObject wdb name e = (.rejected, wdb) := by
  refine ⟨?_, ?_, ?_, ?_, ?_, ?_, ?_, ?_⟩ <;>
    simp [idbFindBy, idbFindOneBy, idbFindObjectById, idbDeleteBy, idbInsertObject,
      webSqlFindBy, webSqlFindOneBy, webSqlDeleteBy, webSqlInsertObject, h1, h2]

/-- Witness for C8 at the concrete registries lacking the model article. -/
theorem c8_unknown_model_outcomes_witness :
    lookupStore dbC8 "article" = none ∧
    lookupTable wdbC8 "article" = none ∧
    idbFindBy dbC8 "article" none none = .rejected ∧
    webSqlInsertObject wdbC8 "article" eC8 = (.rejected, wdbC8) :=
  ⟨by decide, by decide,
    (c8_unknown_model_outcomes dbC8 wdbC8 "article" none none eC8
      (by decide) (by decide)).1,
    (c8_unknown_model_outcomes dbC8 wdbC8 "article" none none eC8
      (by decide) (by decide)).2.2.2.2.2.2.2⟩

/-- C9: on the index-engine variant, when findBy yields no matching records,
deleteBy fulfills immediately: it issues no engine delete operation and
every stored record of every model is unchanged. -/
theorem c9_deleteBy_empty_result_noop (db : IDBDatabase) (name : String) (attrs : Option Query)
    (h : idbFindBy db name attrs none = .fulfilled []) :
    idbDeleteBy db name attrs = (.fulfilled (), db, []) := by
  simp [idbDeleteBy, h]

/-- Witness for C9 at a registered model with an empty store. -/
theorem c9_deleteBy_empty_result_noop_witness :
    idbFindBy dbC9 "m" none none = .fulfilled [] ∧
    idbDeleteBy dbC9 "m" none = (.fulfilled (), dbC9, []) :=
  ⟨by decide, c9_deleteBy_empty_result_noop dbC9 "m" none (by decide)⟩

/-- C10: the cursor direction is next exactly when orderBy is absent or the
direction of its first attribute is the exact string asc; every other
orderBy value (desc, misspellings, arbitrary strings, an empty object)
yields prev. -/
theorem c10_direction_next_iff (ob : Option OrderBy) :
    (getDirection ob = "next" ↔
      ob = none ∨ ∃ l, ob = some l ∧ l.head?.map (fun e => e.2) = some "asc") ∧
    (getDirection ob = "next" ∨ getDirection ob = "prev") := by
  cases ob with
  | none => simp [getDirection]
  | some l =>
      cases l with
      | nil => simp [getDirection]
      | cons x xs =>
          by_cases hd : x.2 = "asc"
          · simp [getDirection, hd]
            exact ⟨x.1, by cases x; simp_all⟩
          · simp [getDirection, hd]
            intro y hy
            exact hd (by rw [hy])

end Conductor
